import Mathlib

/-!
# ssd1306lib: lock primitives, pixel addressing and `OLED_init` validation

A shallow embedding of `src/oled.h` (thodnev/ssd1306lib).

* Machine integers are natural numbers with an explicit bound: `uint8_t` is
  `Fin 256`, and every place where C converts or wraps is an explicit `%`.
  The target is AVR, where `int` is 16 bits wide.
* The device record `OLED` carries the fields of `struct OLED_s_`; the frame
  buffer, a `uint8_t *` in C, is the list of bytes it points to.
* An access outside the frame buffer is undefined in C; here it is `none`.
* Loops take a fuel argument and return `none` when it runs out.
-/

namespace SSD1306

/-! ## Data model -/

/-- An unsigned 8-bit machine integer (`uint8_t`). -/
abbrev uint8_t := Fin 256

/-- Conversion of an `int` value (given by its bit pattern) to `uint8_t`:
the low eight bits. -/
def to_uint8 (n : Nat) : uint8_t := ⟨n % 256, Nat.mod_lt n (by decide)⟩

/-- The lock type `lock_t` (`volatile uint8_t`): 1 means unlocked, 0 means
locked. -/
abbrev lock_t := uint8_t

/-- The device record `struct OLED_s_` (built with I2C, so the three I2C
fields are present). -/
structure OLED where
  width : uint8_t
  height : uint8_t
  busy_lock : lock_t
  frame_buffer : List uint8_t
  i2c_addr : uint8_t
  cur_page : uint8_t
  num_pages : uint8_t
deriving DecidableEq

/-! ## Pixel addressing: `OLED_put_pixel_` -/

/-- The local `byte_num` of `OLED_put_pixel_`:
`(y / 8) * (uint16_t)oled->width + x`, computed in 16-bit unsigned
arithmetic. -/
def byte_num (width x y : uint8_t) : Nat :=
  ((y.val / 8) * width.val + x.val) % 65536

/-- The local `bit_y` of `OLED_put_pixel_`: `y % 8`. -/
def bit_y (y : uint8_t) : Nat := y.val % 8

/-- The 16-bit `int` complement `~v`, as a bit pattern. -/
def int_not (v : Nat) : Nat := 65535 ^^^ v

/-- The function `OLED_put_pixel_`: the read-modify-write of one frame buffer
byte, `|= (1 << bit_y)` when `pixel_state` holds and `&= ~(1 << bit_y)`
otherwise. The byte is promoted to `int`, combined with the mask and
converted back to `uint8_t`. -/
def OLED_put_pixel_ (oled : OLED) (x y : uint8_t) (pixel_state : Bool) :
    Option OLED :=
  match oled.frame_buffer[byte_num oled.width x y]? with
  | none => none
  | some b =>
    let v : uint8_t :=
      if pixel_state then to_uint8 (b.val ||| (1 <<< bit_y y))
      else to_uint8 (b.val &&& int_not (1 <<< bit_y y))
    some { oled with
      frame_buffer := oled.frame_buffer.set (byte_num oled.width x y) v }

/-- Observation of the frame buffer: bit `k` of byte `i`, when byte `i`
exists. -/
def frame_bit (fb : List uint8_t) (i k : Nat) : Option Bool :=
  (fb[i]?).map (fun b => b.val.testBit k)

/-! ## Lock primitives -/

/-- The function `OLED_unlock`: `oled->busy_lock = 1`. -/
def OLED_unlock (oled : OLED) : OLED := { oled with busy_lock := 1 }

/-- The function `OLED_trylock` (the non-XMEGA variant). Between `cli` and the
restoring `out __SREG__` no interrupt can run, so the load and the store are one
step: `ld` reads the lock into `val`, `st` writes zero to the lock, and the
function returns `!val`. -/
def OLED_trylock (oled : OLED) : Bool × OLED :=
  let val : uint8_t := oled.busy_lock
  (val.val == 0, { oled with busy_lock := 0 })

/-- The function `OLED_spinlock`: `while (!OLED_trylock(oled)); return true;`
with no other actor between the iterations. Each unit of fuel pays for one call
of `OLED_trylock`. -/
def OLED_spinlock : Nat → OLED → Option (Bool × OLED)
  | 0, _ => none
  | fuel + 1, oled =>
    match OLED_trylock oled with
    | (true, o) => some (true, o)
    | (false, o) => OLED_spinlock fuel o

/-- The number of `OLED_trylock` calls the loop of `OLED_spinlock` makes before
it returns, when it returns within the fuel. -/
def OLED_spinlock_calls : Nat → OLED → Option Nat
  | 0, _ => none
  | fuel + 1, oled =>
    match OLED_trylock oled with
    | (true, _) => some 1
    | (false, o) => (OLED_spinlock_calls fuel o).map (· + 1)

/-- How the body of a block hands control back. -/
inductive Completion
  /-- The body ran to its end. -/
  | finished
  /-- The body executed `continue`. -/
  | continued
  /-- The body executed `break`. -/
  | broke
  /-- The body executed `return`, leaving the enclosing function. -/
  | returned
deriving DecidableEq

/-- The loop of `OLED_WITH_SPINLOCK` once its init clause has run:
`for (...; __tmp; OLED_unlock((oled)), __tmp = false) body`. The condition
is tested; when it holds the body runs; after a body that ends or continues
the step clause runs and the condition is tested again; `break` and `return`
leave the loop at once, without the step clause. The result tells how the loop
was left: `finished` by a false condition, `broke` or `returned` by the body. -/
def with_lock_loop (body : OLED → OLED × Completion) :
    Nat → Bool → OLED → Option (OLED × Completion)
  | 0, _, _ => none
  | fuel + 1, tmp, oled =>
    if tmp then
      match body oled with
      | (o, Completion.broke) => some (o, Completion.broke)
      | (o, Completion.returned) => some (o, Completion.returned)
      | (o, _) => with_lock_loop body fuel false (OLED_unlock o)
    else some (oled, Completion.finished)

/-- The block header `OLED_WITH_SPINLOCK(oled) { body }`: the init clause
`bool __tmp = OLED_spinlock((oled))`, then the loop. -/
def OLED_WITH_SPINLOCK (fuel : Nat) (oled : OLED)
    (body : OLED → OLED × Completion) : Option (OLED × Completion) :=
  match OLED_spinlock fuel oled with
  | none => none
  | some (tmp, o) => with_lock_loop body fuel tmp o

/-! ## Several actors sharing one lock -/

/-- What an actor may do to the lock. -/
inductive Action
  /-- The actor calls `OLED_trylock`. -/
  | trylock (actor : Nat)
  /-- The actor calls `OLED_unlock`. -/
  | unlock (actor : Nat)
deriving DecidableEq

/-- A device together with the actors that hold its lock. -/
structure LockSystem where
  oled : OLED
  holders : List Nat
deriving DecidableEq

/-- One atomic step. An actor whose `OLED_trylock` returns true becomes a
holder; only a holder may call `OLED_unlock`, and it stops being a holder. -/
def LockSystem.step (s : LockSystem) : Action → Option LockSystem
  | Action.trylock a =>
    match OLED_trylock s.oled with
    | (true, o) => some ⟨o, s.holders.insert a⟩
    | (false, o) => some ⟨o, s.holders⟩
  | Action.unlock a =>
    if a ∈ s.holders then some ⟨OLED_unlock s.oled, s.holders.erase a⟩
    else none

/-- A sequence of steps, first to last. -/
def LockSystem.run (s : LockSystem) : List Action → Option LockSystem
  | [] => some s
  | a :: rest =>
    match s.step a with
    | none => none
    | some t => t.run rest

/-- The states the step relation reaches from `init`. -/
def LockSystem.Reachable (init s : LockSystem) : Prop :=
  ∃ acts : List Action, init.run acts = some s

/-! ## The XMEGA lock backend and the instrumented loops -/

/-- The function `OLED_trylock` (the XMEGA variant), with the `lac` instruction
as its comment describes it: `lock_t old = busy_lock; busy_lock = busy_lock &
~val; val = old;` in one atomic step, `val` starting as `true`; the function
returns `!val`. -/
def OLED_trylock_xmega (oled : OLED) : Bool × OLED :=
  let val : uint8_t := 1
  let old : uint8_t := oled.busy_lock
  let lock : uint8_t := to_uint8 (oled.busy_lock.val &&& int_not val.val)
  let val : uint8_t := old
  (val.val == 0, { oled with busy_lock := lock })

/-- The device after the first `n` calls of `OLED_trylock` made by the loop of
`OLED_spinlock`, with no other actor in between. -/
def after_trylocks : Nat → OLED → OLED
  | 0, oled => oled
  | n + 1, oled => after_trylocks n (OLED_trylock oled).2

/-- The loop of `OLED_WITH_SPINLOCK`, as `with_lock_loop`, recording the device
states at which the body is started, in order. -/
def with_lock_loop_bodies (body : OLED → OLED × Completion) :
    Nat → Bool → OLED → List OLED
  | 0, _, _ => []
  | fuel + 1, tmp, oled =>
    if tmp then
      match body oled with
      | (_, Completion.broke) => [oled]
      | (_, Completion.returned) => [oled]
      | (o, _) => oled :: with_lock_loop_bodies body fuel false (OLED_unlock o)
    else []

/-- The device states at which `OLED_WITH_SPINLOCK(oled) { body }` starts its
body, in order. -/
def OLED_WITH_SPINLOCK_bodies (fuel : Nat) (oled : OLED)
    (body : OLED → OLED × Completion) : List OLED :=
  match OLED_spinlock fuel oled with
  | none => []
  | some (tmp, o) => with_lock_loop_bodies body fuel tmp o

/-! ## Checked drawing: `OLED_put_pixel` and `OLED_put_rectangle` -/

/-- The error codes `OLED_err`. -/
inductive OLED_err
  /-- No error. -/
  | OLED_EOK
  /-- Pixel is out of display bounds. -/
  | OLED_EBOUNDS
  /-- Wrong parameters specified. -/
  | OLED_EPARAMS
  /-- The display is busy (locked). -/
  | OLED_EBUSY
deriving DecidableEq

/-- The colour `OLED_WHITE` of `enum OLED_params`. -/
def OLED_WHITE : Nat := 0x00

/-- The colour `OLED_BLACK` of `enum OLED_params`. -/
def OLED_BLACK : Nat := 0x01

/-- The flag `OLED_NO_FILL` of `enum OLED_params`. -/
def OLED_NO_FILL : Nat := 0x00

/-- The flag `OLED_FILL` of `enum OLED_params`. -/
def OLED_FILL : Nat := 0x02

/-- Observation of the frame buffer: the bit of pixel `(x, y)`, bit `y mod 8`
of byte `(y / 8) * width + x`. -/
def pixel_at (oled : OLED) (x y : uint8_t) : Option Bool :=
  frame_bit oled.frame_buffer ((y.val / 8) * oled.width.val + x.val) (y.val % 8)

/-- Modelled from the spec: the body of `OLED_put_pixel`, which `oled.h` only
declares (it lives in `oled.c`). The spec: "validates 0 ≤ x < width and
0 ≤ y < height; fails with OutOfBounds otherwise; delegates to the unchecked
variant on success". -/
def OLED_put_pixel (oled : OLED) (x y : uint8_t) (pixel_state : Bool) :
    Option (OLED_err × OLED) :=
  if x < oled.width ∧ y < oled.height then
    match OLED_put_pixel_ oled x y pixel_state with
    | none => none
    | some o => some (OLED_err.OLED_EOK, o)
  else some (OLED_err.OLED_EBOUNDS, oled)

/-- The values from `a` to `b`, both included, in increasing order. -/
def closed_range (a b : uint8_t) : List uint8_t :=
  (List.finRange 256).filter (fun v => decide (a ≤ v ∧ v ≤ b))

/-- Modelled from the spec: the pixel writes of `OLED_put_rectangle`, "set the
pixel to `color`" for each listed coordinate in turn, each one a call of the
unchecked `OLED_put_pixel_`. -/
def put_pixels (s : Bool) : OLED → List (uint8_t × uint8_t) → Option OLED
  | oled, [] => some oled
  | oled, (x, y) :: rest =>
    match OLED_put_pixel_ oled x y s with
    | none => none
    | some o => put_pixels s o rest

/-- Modelled from the spec: the body of `OLED_put_rectangle`, which `oled.h`
only declares (it lives in `oled.c`). The spec: (1) "validate all four
coordinates are within [0, width) × [0, height); fail with OutOfBounds if not
(no clipping)"; (2) "normalize so x_from ≤ x_to and y_from ≤ y_to (swap if
needed)"; (3) "if `fill` is set: for every (x, y) in the closed rectangle, set
the pixel to `color`; if `fill` is not set: draw only the four boundary edges
(top row, bottom row, left column, right column) at `color`". The fill flag
and the colour bit are the bits `OLED_FILL` and `OLED_BLACK` of `params`. -/
def OLED_put_rectangle (oled : OLED) (x_from y_from x_to y_to : uint8_t)
    (params : Nat) : Option (OLED_err × OLED) :=
  if x_from < oled.width ∧ x_to < oled.width ∧
      y_from < oled.height ∧ y_to < oled.height then
    let x0 := if x_to < x_from then x_to else x_from
    let x1 := if x_to < x_from then x_from else x_to
    let y0 := if y_to < y_from then y_to else y_from
    let y1 := if y_to < y_from then y_from else y_to
    let color : Bool := decide (params &&& OLED_BLACK ≠ 0)
    let pts : List (uint8_t × uint8_t) :=
      if params &&& OLED_FILL ≠ 0 then
        List.product (closed_range x0 x1) (closed_range y0 y1)
      else
        (closed_range x0 x1).map (fun x => (x, y0)) ++
        (closed_range x0 x1).map (fun x => (x, y1)) ++
        (closed_range y0 y1).map (fun y => (x0, y)) ++
        (closed_range y0 y1).map (fun y => (x1, y))
    match put_pixels color oled pts with
    | none => none
    | some o => some (OLED_err.OLED_EOK, o)
  else some (OLED_err.OLED_EBOUNDS, oled)

/-! ## Compile-time validation of `OLED_init` -/

/-- The fallback clock frequency `F_CPU` of `oled.h`, which is also the value
`oled_test.c` defines. -/
def F_CPU : Nat := 16000000

/-- The first `_Static_assert` of `OLED_init`: `!((w) % 8) && !((h) % 8)`.
The macro arguments are integer constant expressions, and `%` is the C
remainder, which truncates towards zero. -/
def OLED_init_assert_dims (w h : Int) : Bool :=
  (w.tmod 8 == 0) && (h.tmod 8 == 0)

/-- The second `_Static_assert` of `OLED_init`:
`((freq) > F_CPU / 32656 + 1) && ((freq) <= F_CPU / 16)`, in unsigned
arithmetic, with the clock frequency as a parameter. -/
def OLED_init_assert_freq (f_cpu freq : Nat) : Bool :=
  decide (freq > f_cpu / 32656 + 1) && decide (freq ≤ f_cpu / 16)

/-- The third `_Static_assert` of `OLED_init`: `((addr) & 0x80) == 0`. The
argument is an integer constant expression and `&` is the bitwise and of
two's complement integers. -/
def OLED_init_assert_addr (addr : Int) : Bool :=
  Int.land addr 0x80 == 0

/-! ## The device of `oled_test.c` -/

/-- The device `oled_test.c` sets up: 128 x 64 pixels, a zeroed buffer of 1024
bytes, bus address `0b0111100`, eight pages, the lock unlocked. -/
def test_oled : OLED :=
  { width := 128, height := 64, busy_lock := 1,
    frame_buffer := List.replicate 1024 0,
    i2c_addr := 60, cur_page := 0, num_pages := 8 }

/-- The same device with its lock locked. -/
def locked_oled : OLED := { test_oled with busy_lock := 0 }

/-- A body that leaves the block at once with `break`. -/
def break_body (o : OLED) : OLED × Completion := (o, Completion.broke)

/-- A body that leaves the enclosing function at once with `return`. -/
def return_body (o : OLED) : OLED × Completion := (o, Completion.returned)

/-- A body that does nothing and runs to its end. -/
def empty_body (o : OLED) : OLED × Completion := (o, Completion.finished)

/-! ## Bit-level lemmas -/

/-- The value of a converted byte. -/
theorem to_uint8_val (n : Nat) : (to_uint8 n).val = n % 2 ^ 8 := rfl

/-- Bits of a byte after `|= (1 << k)`. -/
theorem testBit_set_mask (b k j : Nat) (hj : j < 8) :
    (to_uint8 (b ||| (1 <<< k))).val.testBit j = (b.testBit j || decide (k = j)) := by
  rw [to_uint8_val, Nat.testBit_mod_two_pow, Nat.testBit_or, Nat.one_shiftLeft,
    Nat.testBit_two_pow]
  simp [hj]

/-- Bits of a byte after `&= ~(1 << k)`. -/
theorem testBit_clear_mask (b k j : Nat) (hj : j < 8) :
    (to_uint8 (b &&& int_not (1 <<< k))).val.testBit j
      = (b.testBit j && !decide (k = j)) := by
  have h16 : (65535 : Nat) = 2 ^ 16 - 1 := by norm_num
  have hj16 : j < 16 := by omega
  rw [to_uint8_val, Nat.testBit_mod_two_pow, Nat.testBit_and, int_not, Nat.testBit_xor,
    Nat.one_shiftLeft, Nat.testBit_two_pow, h16, Nat.testBit_two_pow_sub_one]
  simp [hj, hj16]

/-- The 16-bit index arithmetic is exact for 8-bit operands. -/
theorem byte_num_exact (width x y : uint8_t) :
    byte_num width x y = (y.val / 8) * width.val + x.val := by
  have hw := width.isLt
  have hx := x.isLt
  have hy : y.val / 8 ≤ 31 := by have := y.isLt; omega
  have : (y.val / 8) * width.val ≤ 31 * 255 :=
    Nat.mul_le_mul hy (by omega)
  unfold byte_num
  exact Nat.mod_eq_of_lt (by omega)

/-- A valid coordinate addresses a byte inside a buffer of `width * (height / 8)`
bytes. -/
theorem index_in_buffer (w h x y : Nat) (hh : h % 8 = 0) (hx : x < w) (hy : y < h) :
    (y / 8) * w + x < w * (h / 8) := by
  have h1 : y / 8 + 1 ≤ h / 8 := by omega
  calc (y / 8) * w + x < (y / 8) * w + w := by omega
    _ = (y / 8 + 1) * w := by ring
    _ ≤ (h / 8) * w := Nat.mul_le_mul_right w h1
    _ = w * (h / 8) := Nat.mul_comm _ _

/-- Division and remainder by the width recover the page row and the column. -/
theorem page_column_unique (w a x a' x' : Nat) (hx : x < w) (hx' : x' < w)
    (h : a * w + x = a' * w + x') : a = a' ∧ x = x' := by
  have hpos : 0 < w := by omega
  have hdiv : ∀ c z, z < w → (c * w + z) / w = c := by
    intro c z hz
    rw [Nat.add_comm, Nat.add_mul_div_right _ _ hpos, Nat.div_eq_of_lt hz, Nat.zero_add]
  have hmod : ∀ c z, z < w → (c * w + z) % w = z := by
    intro c z hz
    rw [Nat.add_comm, Nat.add_mul_mod_self_right, Nat.mod_eq_of_lt hz]
  constructor
  · rw [← hdiv a x hx, ← hdiv a' x' hx', h]
  · rw [← hmod a x hx, ← hmod a' x' hx', h]

/-- What `OLED_put_pixel_` returns when the addressed byte exists. -/
theorem put_pixel_eq (oled : OLED) (x y : uint8_t) (s : Bool) (b : uint8_t)
    (hb : oled.frame_buffer[(y.val / 8) * oled.width.val + x.val]? = some b) :
    OLED_put_pixel_ oled x y s = some { oled with
      frame_buffer := oled.frame_buffer.set ((y.val / 8) * oled.width.val + x.val)
        (if s then to_uint8 (b.val ||| (1 <<< (y.val % 8)))
         else to_uint8 (b.val &&& int_not (1 <<< (y.val % 8)))) } := by
  unfold OLED_put_pixel_
  rw [byte_num_exact, hb]
  rfl

/-! ## Pixel addressing: the claims -/

/-- C1: on a device whose width and height are multiples of 8 and whose frame
buffer has `width * (height / 8)` bytes, for `x < width` and `y < height`,
`OLED_put_pixel_(oled, x, y, true)` returns with bit `y mod 8` of byte
`(y / 8) * width + x` equal to 1, and a following
`OLED_put_pixel_(oled, x, y, false)` returns with that bit equal to 0. -/
theorem put_pixel_round_trip (oled : OLED) (x y : uint8_t)
    (_hw : oled.width.val % 8 = 0) (hh : oled.height.val % 8 = 0)
    (hlen : oled.frame_buffer.length = oled.width.val * (oled.height.val / 8))
    (hx : x < oled.width) (hy : y < oled.height) :
    ∃ o1 o2 : OLED,
      OLED_put_pixel_ oled x y true = some o1 ∧
      frame_bit o1.frame_buffer ((y.val / 8) * oled.width.val + x.val) (y.val % 8)
        = some true ∧
      OLED_put_pixel_ o1 x y false = some o2 ∧
      frame_bit o2.frame_buffer ((y.val / 8) * oled.width.val + x.val) (y.val % 8)
        = some false := by
  have hi : (y.val / 8) * oled.width.val + x.val < oled.frame_buffer.length := by
    rw [hlen]
    exact index_in_buffer _ _ _ _ hh hx hy
  have hk : y.val % 8 < 8 := Nat.mod_lt _ (by decide)
  have h1 := put_pixel_eq oled x y true _ (List.getElem?_eq_getElem hi)
  refine ⟨_, _, h1, ?_, put_pixel_eq _ x y false _ (List.getElem?_set_self hi), ?_⟩
  · simp only [frame_bit, List.getElem?_set_self hi, Option.map_some', if_true]
    rw [testBit_set_mask _ _ _ hk]
    simp
  · have hi' : (y.val / 8) * oled.width.val + x.val
        < (oled.frame_buffer.set ((y.val / 8) * oled.width.val + x.val)
            (to_uint8 ((oled.frame_buffer[(y.val / 8) * oled.width.val + x.val]).val
              ||| (1 <<< (y.val % 8))))).length := by
      rw [List.length_set]
      exact hi
    simp only [frame_bit, if_true, List.getElem?_set_self hi', Option.map_some']
    simp only [Bool.false_eq_true, if_false]
    rw [testBit_clear_mask _ _ _ hk]
    simp

/-- C2: on a valid device and for a valid coordinate, `OLED_put_pixel_`
returns, keeps the buffer length, leaves every byte other than byte
`(y / 8) * width + x` unchanged, leaves the other seven bits of that byte
unchanged, and so every other valid pixel reads back its old value, for both
pixel states. -/
theorem put_pixel_frame (oled : OLED) (x y : uint8_t) (s : Bool)
    (_hw : oled.width.val % 8 = 0) (hh : oled.height.val % 8 = 0)
    (hlen : oled.frame_buffer.length = oled.width.val * (oled.height.val / 8))
    (hx : x < oled.width) (hy : y < oled.height) :
    ∃ o : OLED,
      OLED_put_pixel_ oled x y s = some o ∧
      o.frame_buffer.length = oled.frame_buffer.length ∧
      (∀ i : Nat, i ≠ (y.val / 8) * oled.width.val + x.val →
        o.frame_buffer[i]? = oled.frame_buffer[i]?) ∧
      (∀ k : Nat, k < 8 → k ≠ y.val % 8 →
        frame_bit o.frame_buffer ((y.val / 8) * oled.width.val + x.val) k
          = frame_bit oled.frame_buffer ((y.val / 8) * oled.width.val + x.val) k) ∧
      (∀ x' y' : uint8_t, x' < oled.width → y' < oled.height → (x', y') ≠ (x, y) →
        frame_bit o.frame_buffer ((y'.val / 8) * oled.width.val + x'.val) (y'.val % 8)
          = frame_bit oled.frame_buffer ((y'.val / 8) * oled.width.val + x'.val)
              (y'.val % 8)) := by
  have hi : (y.val / 8) * oled.width.val + x.val < oled.frame_buffer.length := by
    rw [hlen]
    exact index_in_buffer _ _ _ _ hh hx hy
  have h1 := put_pixel_eq oled x y s _ (List.getElem?_eq_getElem hi)
  have hbits : ∀ k : Nat, k < 8 → k ≠ y.val % 8 →
      frame_bit (oled.frame_buffer.set ((y.val / 8) * oled.width.val + x.val)
          (if s then to_uint8 ((oled.frame_buffer[(y.val / 8) * oled.width.val + x.val]).val
                ||| (1 <<< (y.val % 8)))
           else to_uint8 ((oled.frame_buffer[(y.val / 8) * oled.width.val + x.val]).val
                &&& int_not (1 <<< (y.val % 8)))))
        ((y.val / 8) * oled.width.val + x.val) k
        = frame_bit oled.frame_buffer ((y.val / 8) * oled.width.val + x.val) k := by
    intro k hk hne
    have hne' : ¬ (y.val % 8 = k) := fun h => hne h.symm
    simp only [frame_bit, List.getElem?_set_self hi, List.getElem?_eq_getElem hi,
      Option.map_some']
    cases s
    · simp only [Bool.false_eq_true, if_false]
      rw [testBit_clear_mask _ _ _ hk]
      simp [hne']
    · simp only [if_true]
      rw [testBit_set_mask _ _ _ hk]
      simp [hne']
  refine ⟨_, h1, List.length_set _ _ _, ?_, hbits, ?_⟩
  · intro i hne
    exact List.getElem?_set_ne (Ne.symm hne)
  · intro x' y' hx' _ hne
    by_cases hidx : (y'.val / 8) * oled.width.val + x'.val
        = (y.val / 8) * oled.width.val + x.val
    · have hpc := page_column_unique _ _ _ _ _ hx' hx hidx
      have hk : y'.val % 8 ≠ y.val % 8 := by
        intro hmod
        apply hne
        have hyy : y'.val = y.val := by omega
        exact Prod.ext (Fin.ext hpc.2) (Fin.ext hyy)
      rw [hidx]
      exact hbits _ (Nat.mod_lt _ (by decide)) hk
    · simp only [frame_bit]
      rw [List.getElem?_set_ne (Ne.symm hidx)]

/-- C3: the addressing of `OLED_put_pixel_` is injective on valid coordinates:
for `x, x' < width` and `y, y' < height`, equal byte numbers and equal bit
numbers force `x = x'` and `y = y'`. -/
theorem pixel_address_injective (width height x y x' y' : uint8_t)
    (hx : x < width) (hx' : x' < width) (_hy : y < height) (_hy' : y' < height)
    (hbyte : byte_num width x y = byte_num width x' y')
    (hbit : bit_y y = bit_y y') : x = x' ∧ y = y' := by
  rw [byte_num_exact, byte_num_exact] at hbyte
  unfold bit_y at hbit
  have hpc := page_column_unique _ _ _ _ _ hx hx' hbyte
  exact ⟨Fin.ext hpc.2, Fin.ext (by omega)⟩

/-- The frame buffer of the test device has `width * (height / 8)` bytes. -/
theorem test_oled_length :
    test_oled.frame_buffer.length = test_oled.width.val * (test_oled.height.val / 8) := by
  show (List.replicate 1024 (0 : uint8_t)).length = _
  rw [List.length_replicate]
  rfl

/-- The round trip on the test device at pixel `(5, 10)`: byte 133, bit 2. -/
theorem put_pixel_round_trip_witness :
    ∃ o1 o2 : OLED,
      OLED_put_pixel_ test_oled 5 10 true = some o1 ∧
      frame_bit o1.frame_buffer 133 2 = some true ∧
      OLED_put_pixel_ o1 5 10 false = some o2 ∧
      frame_bit o2.frame_buffer 133 2 = some false :=
  put_pixel_round_trip test_oled 5 10 (by decide) (by decide) test_oled_length
    (by decide) (by decide)

/-- Setting pixel `(5, 10)` of the test device leaves bit 3 of byte 133 and the
pixel `(6, 10)` as they were. -/
theorem put_pixel_frame_witness :
    ∃ o : OLED,
      OLED_put_pixel_ test_oled 5 10 true = some o ∧
      frame_bit o.frame_buffer 133 3 = frame_bit test_oled.frame_buffer 133 3 ∧
      frame_bit o.frame_buffer 134 2 = frame_bit test_oled.frame_buffer 134 2 := by
  obtain ⟨o, h1, _, _, h4, h5⟩ :=
    put_pixel_frame test_oled 5 10 true (by decide) (by decide) test_oled_length
      (by decide) (by decide)
  exact ⟨o, h1, h4 3 (by decide) (by decide),
    h5 6 10 (by decide) (by decide) (by decide)⟩

/-- The addressing at width 128 and pixel `(5, 10)`. -/
theorem pixel_address_injective_witness :
    byte_num 128 5 10 = byte_num 128 5 10 ∧ bit_y 10 = bit_y 10 ∧
      ((5 : uint8_t) = 5 ∧ (10 : uint8_t) = 10) :=
  ⟨rfl, rfl, pixel_address_injective 128 64 5 10 5 10 (by decide) (by decide)
    (by decide) (by decide) rfl rfl⟩

/-! ## Lock primitives: what the code does -/

/-- The result of `OLED_trylock` in closed form: it returns true exactly when
the lock byte was 0, and it always leaves the lock byte 0. -/
theorem trylock_eq (oled : OLED) :
    OLED_trylock oled = (decide (oled.busy_lock = 0), { oled with busy_lock := 0 }) := by
  unfold OLED_trylock
  by_cases h : oled.busy_lock = 0
  · simp [h]
  · have h' : ¬ (oled.busy_lock.val = 0) := fun hv => h (Fin.ext hv)
    simp [h, h']

/-- With no other actor `OLED_spinlock` returns within two calls of
`OLED_trylock`, whatever the lock was, and leaves the lock byte 0. -/
theorem spinlock_eq (oled : OLED) (fuel : Nat) :
    OLED_spinlock (fuel + 2) oled = some (true, { oled with busy_lock := 0 }) := by
  by_cases h : oled.busy_lock = 0
  · simp [OLED_spinlock, trylock_eq, h]
  · simp [OLED_spinlock, trylock_eq, h]

/-- C4: evaluation of the code at the claim's scenario. From the unlocked lock
(`busy_lock = 1`) the first `OLED_trylock` returns false and the second returns
true, and after `OLED_unlock` the next `OLED_trylock` returns false: the
opposite of true, false, true. -/
theorem trylock_twice_from_unlocked :
    test_oled.busy_lock = 1 ∧
    (OLED_trylock test_oled).1 = false ∧
    (OLED_trylock (OLED_trylock test_oled).2).1 = true ∧
    (OLED_trylock (OLED_unlock (OLED_trylock (OLED_trylock test_oled).2).2)).1
      = false := by
  refine ⟨by decide, by decide, by decide, by decide⟩

/-- C5: evaluation of the code on both lock states. On the unlocked lock
(`busy_lock = 1`) `OLED_trylock` returns false and yet changes the lock to 0;
on the locked lock (`busy_lock = 0`) it returns true. -/
theorem trylock_false_on_unlocked :
    test_oled.busy_lock = 1 ∧
    (OLED_trylock test_oled).1 = false ∧
    (OLED_trylock test_oled).2.busy_lock = 0 ∧
    (OLED_trylock test_oled).2.busy_lock ≠ test_oled.busy_lock ∧
    locked_oled.busy_lock = 0 ∧
    (OLED_trylock locked_oled).1 = true := by
  refine ⟨by decide, by decide, by decide, by decide, by decide, by decide⟩

/-- C6: a run of the step relation that ends with two holders. From the
unlocked device with no holders, actor 0 calls `OLED_trylock` twice (false,
then true) and actor 1 calls it once (true): both hold the lock. -/
theorem two_holders_reachable :
    ∃ s : LockSystem,
      LockSystem.Reachable ⟨test_oled, []⟩ s ∧ s.holders = [1, 0] ∧
        ¬ (s.holders.length ≤ 1) :=
  ⟨⟨locked_oled, [1, 0]⟩,
    ⟨[Action.trylock 0, Action.trylock 0, Action.trylock 1], rfl⟩, rfl, by decide⟩

/-- C7: evaluation of the code on a lock that starts locked. The first
`OLED_trylock` of the loop returns true, so `OLED_spinlock` returns after one
call. -/
theorem spinlock_returns_on_locked :
    locked_oled.busy_lock = 0 ∧
    (OLED_trylock locked_oled).1 = true ∧
    OLED_spinlock 1 locked_oled = some (true, locked_oled) ∧
    OLED_spinlock_calls 1 locked_oled = some 1 :=
  ⟨by decide, by decide, rfl, rfl⟩

/-! ## The scoped helper `OLED_WITH_SPINLOCK` -/

/-- The loop entered with a true condition, in closed form. -/
theorem with_lock_loop_eq (body : OLED → OLED × Completion) (fuel : Nat) (o : OLED) :
    with_lock_loop body (fuel + 2) true o =
      some (match body o with
        | (o', Completion.broke) => (o', Completion.broke)
        | (o', Completion.returned) => (o', Completion.returned)
        | (o', _) => (OLED_unlock o', Completion.finished)) := by
  rcases hb : body o with ⟨o', c⟩
  cases c <;> simp [with_lock_loop, hb]

/-- C8, as stated, fails: a body that leaves the block with `break`, or the
enclosing function with `return`, skips the step clause `OLED_unlock`, and the
lock is still locked once control has left the block. -/
theorem with_spinlock_break_keeps_lock :
    OLED_WITH_SPINLOCK 2 test_oled break_body = some (locked_oled, Completion.broke) ∧
    OLED_WITH_SPINLOCK 2 test_oled return_body
      = some (locked_oled, Completion.returned) ∧
    locked_oled.busy_lock ≠ 1 :=
  ⟨rfl, rfl, by decide⟩

/-- C8, amended: started on an unlocked lock with no other actor,
`OLED_WITH_SPINLOCK(oled) { body }` acquires the lock, runs the body and
leaves the block. When the body runs to its end or executes `continue`, the
lock is unlocked (`busy_lock = 1`) once control has left the block. When the
body leaves through `break` or `return`, `OLED_unlock` is not executed and the
device is as the body left it. The hypothesis on the lock keeps the statement
to the documented use, a block entered on a free lock. -/
theorem with_spinlock_release (oled : OLED) (body : OLED → OLED × Completion)
    (fuel : Nat) (_hlock : oled.busy_lock = 1) (hfuel : 2 ≤ fuel) :
    ∃ (o : OLED) (r : OLED × Completion),
      OLED_spinlock fuel oled = some (true, o) ∧
      o.busy_lock = 0 ∧
      OLED_WITH_SPINLOCK fuel oled body = some r ∧
      (((body o).2 = Completion.finished ∨ (body o).2 = Completion.continued) →
        r.2 = Completion.finished ∧ r.1.busy_lock = 1) ∧
      (((body o).2 = Completion.broke ∨ (body o).2 = Completion.returned) →
        r = body o) := by
  obtain ⟨n, rfl⟩ : ∃ n, fuel = n + 2 := ⟨fuel - 2, by omega⟩
  have hs := spinlock_eq oled n
  have hw : OLED_WITH_SPINLOCK (n + 2) oled body
      = with_lock_loop body (n + 2) true { oled with busy_lock := 0 } := by
    unfold OLED_WITH_SPINLOCK
    rw [hs]
  rw [with_lock_loop_eq] at hw
  refine ⟨{ oled with busy_lock := 0 }, _, hs, rfl, hw, ?_, ?_⟩
  · rcases hb : body { oled with busy_lock := 0 } with ⟨o', c⟩
    cases c <;> simp [OLED_unlock]
  · rcases hb : body { oled with busy_lock := 0 } with ⟨o', c⟩
    cases c <;> simp

/-- The block with an empty body on the test device ends with the lock
unlocked. -/
theorem with_spinlock_release_witness :
    ∃ r : OLED × Completion,
      OLED_WITH_SPINLOCK 2 test_oled empty_body = some r ∧
      r.2 = Completion.finished ∧ r.1.busy_lock = 1 := by
  obtain ⟨o, r, hs, _, hr, hfin, _⟩ :=
    with_spinlock_release test_oled empty_body 2 (by decide) (by decide)
  exact ⟨r, hr, hfin (Or.inl rfl)⟩

/-! ## Compile-time validation of `OLED_init`: the claims -/

/-- C9, as stated, fails: the dimension check accepts a width of 0, which is
not positive. -/
theorem assert_dims_accepts_zero :
    ¬ (OLED_init_assert_dims 0 64 = true ↔
        ((0 : Int) > 0 ∧ (64 : Int) > 0 ∧ (0 : Int) % 8 = 0 ∧ (64 : Int) % 8 = 0)) := by
  intro h
  have h0 := (h.mp (by decide)).1
  exact absurd h0 (by decide)

/-- C9, amended: the dimension check of `OLED_init` passes exactly when the
width and the height are both multiples of 8, zero included; `(127, 64)` is
rejected and `(128, 64)` is accepted. -/
theorem assert_dims_iff (w h : Int) :
    (OLED_init_assert_dims w h = true ↔ (w % 8 = 0 ∧ h % 8 = 0)) ∧
    OLED_init_assert_dims 127 64 = false ∧
    OLED_init_assert_dims 128 64 = true := by
  refine ⟨?_, by decide, by decide⟩
  have key : ∀ z : Int, z.tmod 8 = 0 ↔ z % 8 = 0 := fun z =>
    Int.dvd_iff_tmod_eq_zero.symm.trans Int.dvd_iff_emod_eq_zero
  simp [OLED_init_assert_dims, key]

/-- The frequency check in closed form. -/
theorem assert_freq_iff (f_cpu freq : Nat) :
    OLED_init_assert_freq f_cpu freq = true ↔
      (f_cpu / 32656 + 2 ≤ freq ∧ freq ≤ f_cpu / 16) := by
  simp [OLED_init_assert_freq]
  omega

/-- C10: evaluation of the code at the lower end of the range its diagnostic
names. With `F_CPU = 16000000` the frequency 490 is `1 + F_CPU / 32656` and
lies in `[1 + F_CPU / 32656, F_CPU / 16]`, yet the check rejects it; 491 is
the least frequency it accepts. -/
theorem assert_freq_rejects_lower_end :
    1 + F_CPU / 32656 = 490 ∧ F_CPU / 16 = 1000000 ∧
    OLED_init_assert_freq F_CPU 490 = false ∧
    OLED_init_assert_freq F_CPU 491 = true ∧
    OLED_init_assert_freq F_CPU 1000000 = true ∧
    OLED_init_assert_freq F_CPU 1000001 = false := by
  refine ⟨by decide, by decide, by decide, by decide, by decide, by decide⟩

/-- The and of a natural number with `0x80` is zero exactly when bit 7 is
clear. -/
theorem nat_and_128 (n : Nat) : n &&& 128 = 0 ↔ n % 256 < 128 := by
  have h7 : n.testBit 7 = decide (n / 2 ^ 7 % 2 = 1) := Nat.testBit_to_div_mod
  have h128 : (128 : Nat) = 2 ^ 7 := by norm_num
  constructor
  · intro h
    have hb : (n &&& 128).testBit 7 = false := by rw [h]; simp
    rw [Nat.testBit_and, h128, Nat.testBit_two_pow_self, Bool.and_true, h7] at hb
    have := of_decide_eq_false hb
    omega
  · intro h
    apply Nat.eq_of_testBit_eq
    intro i
    rw [Nat.testBit_and, h128, Nat.testBit_two_pow, Nat.zero_testBit]
    by_cases hi : 7 = i
    · subst hi
      have : n.testBit 7 = false := by
        rw [h7]
        exact decide_eq_false (by omega)
      simp [this]
    · simp [hi]

/-- The bits of `0x80` outside a natural number are none exactly when bit 7 of
the number is set. -/
theorem nat_ldiff_128 (m : Nat) : Nat.ldiff 128 m = 0 ↔ 128 ≤ m % 256 := by
  have h7 : m.testBit 7 = decide (m / 2 ^ 7 % 2 = 1) := Nat.testBit_to_div_mod
  have h128 : (128 : Nat) = 2 ^ 7 := by norm_num
  constructor
  · intro h
    have hb : (Nat.ldiff 128 m).testBit 7 = false := by rw [h]; simp
    rw [Nat.testBit_ldiff, h128, Nat.testBit_two_pow_self, Bool.true_and, h7] at hb
    have : (m / 2 ^ 7 % 2 = 1) := by simpa using hb
    omega
  · intro h
    apply Nat.eq_of_testBit_eq
    intro i
    rw [Nat.testBit_ldiff, h128, Nat.testBit_two_pow, Nat.zero_testBit]
    by_cases hi : 7 = i
    · subst hi
      have : m.testBit 7 = true := by
        rw [h7]
        exact decide_eq_true (by omega)
      simp [this]
    · simp [hi]

/-- The address check in closed form: it passes exactly when bit 7 of the
two's complement argument is clear. -/
theorem assert_addr_eq (addr : Int) :
    OLED_init_assert_addr addr = true ↔ addr % 256 < 128 := by
  unfold OLED_init_assert_addr
  rw [beq_iff_eq]
  cases addr with
  | ofNat n =>
    show ((n &&& 128 : Nat) : Int) = 0 ↔ (n : Int) % 256 < 128
    rw [Int.natCast_eq_zero, nat_and_128]
    omega
  | negSucc m =>
    show ((Nat.ldiff 128 m : Nat) : Int) = 0 ↔ _
    rw [Int.natCast_eq_zero, nat_ldiff_128, Int.negSucc_eq]
    omega

/-! ## `OLED_init`: the address check -/

/-- C11, as stated, fails: the address check accepts 256, which is not in
`0 .. 127`. -/
theorem assert_addr_accepts_256 :
    ¬ (OLED_init_assert_addr 256 = true ↔ ((0 : Int) ≤ 256 ∧ (256 : Int) ≤ 127)) := by
  intro h
  have h0 := (h.mp (by decide)).2
  exact absurd h0 (by decide)

/-- C11, amended: the address check of `OLED_init` tests bit 7 only. It passes
exactly when the remainder of the address modulo 256, the value the `uint8_t`
parameter receives, is at most 127; for an address that fits `uint8_t` it
passes exactly when the address is at most 127. `0b0111100` is accepted and
`0x80` is rejected. -/
theorem assert_addr_iff (addr : Int) (a : uint8_t) :
    (OLED_init_assert_addr addr = true ↔ addr % 256 ≤ 127) ∧
    (OLED_init_assert_addr (a.val : Int) = true ↔ a.val ≤ 127) ∧
    OLED_init_assert_addr 0b0111100 = true ∧
    OLED_init_assert_addr 0x80 = false := by
  refine ⟨?_, ?_, by decide, by decide⟩
  · rw [assert_addr_eq]
    omega
  · rw [assert_addr_eq]
    have := a.isLt
    omega

/-! ## The two lock backends -/

/-- C15: for a lock value in `{0, 1}` the XMEGA `OLED_trylock` and the
non-XMEGA `OLED_trylock` return the same boolean and leave the same device,
the lock value included. -/
theorem trylock_backends_agree (oled : OLED)
    (hlock : oled.busy_lock = 0 ∨ oled.busy_lock = 1) :
    (OLED_trylock_xmega oled).1 = (OLED_trylock oled).1 ∧
    (OLED_trylock_xmega oled).2.busy_lock = (OLED_trylock oled).2.busy_lock ∧
    OLED_trylock_xmega oled = OLED_trylock oled := by
  have key : OLED_trylock_xmega oled = OLED_trylock oled := by
    unfold OLED_trylock_xmega OLED_trylock
    rcases hlock with h | h <;> rw [h] <;> rfl
  rw [key]
  exact ⟨rfl, rfl, rfl⟩

/-- The two backends on the unlocked test device. -/
theorem trylock_backends_agree_witness :
    (OLED_trylock_xmega test_oled).1 = (OLED_trylock test_oled).1 ∧
    (OLED_trylock_xmega test_oled).2.busy_lock = (OLED_trylock test_oled).2.busy_lock ∧
    OLED_trylock_xmega test_oled = OLED_trylock test_oled :=
  trylock_backends_agree test_oled (Or.inr rfl)

/-! ## Index safety and `OLED_unlock` -/

/-- C16: for a height that is a multiple of 8 and `x < width`, `y < height`,
the byte number `OLED_put_pixel_` computes, which is `(y / 8) * width + x`,
is below the buffer length `width * (height / 8)`. -/
theorem byte_num_in_buffer (width height x y : uint8_t)
    (hh : height.val % 8 = 0) (hx : x < width) (hy : y < height) :
    byte_num width x y < width.val * (height.val / 8) ∧
    (y.val / 8) * width.val + x.val < width.val * (height.val / 8) := by
  rw [byte_num_exact]
  exact ⟨index_in_buffer _ _ _ _ hh hx hy, index_in_buffer _ _ _ _ hh hx hy⟩

/-- The last pixel of the 128 x 64 display addresses byte 1023 of 1024. -/
theorem byte_num_in_buffer_witness :
    byte_num 128 127 63 < 128 * (64 / 8) ∧ (63 / 8) * 128 + 127 < 128 * (64 / 8) :=
  byte_num_in_buffer 128 64 127 63 (by decide) (by decide) (by decide)

/-- C17: from every lock value `OLED_unlock` leaves `busy_lock = 1`, a second
`OLED_unlock` changes nothing, and no other field of the device changes. -/
theorem unlock_unconditional (oled : OLED) :
    (OLED_unlock oled).busy_lock = 1 ∧
    OLED_unlock (OLED_unlock oled) = OLED_unlock oled ∧
    (OLED_unlock oled).width = oled.width ∧
    (OLED_unlock oled).height = oled.height ∧
    (OLED_unlock oled).frame_buffer = oled.frame_buffer ∧
    (OLED_unlock oled).i2c_addr = oled.i2c_addr ∧
    (OLED_unlock oled).cur_page = oled.cur_page ∧
    (OLED_unlock oled).num_pages = oled.num_pages :=
  ⟨rfl, rfl, rfl, rfl, rfl, rfl, rfl, rfl⟩

/-- C20: for 8-bit `x`, `y` and `width` the index of `OLED_put_pixel_`,
computed modulo `2 ^ 16` (at the end, or after the product and again after the
sum), is the exact value `(y / 8) * width + x`, which is at most 8160; and the
mask `1 << (y mod 8)` is below 256. -/
theorem byte_num_no_wrap (width x y : uint8_t) :
    byte_num width x y = (y.val / 8) * width.val + x.val ∧
    (((y.val / 8) * width.val) % 65536 + x.val) % 65536
      = (y.val / 8) * width.val + x.val ∧
    (y.val / 8) * width.val + x.val ≤ 8160 ∧
    1 <<< bit_y y < 256 := by
  have hw := width.isLt
  have hx := x.isLt
  have hy : y.val / 8 ≤ 31 := by have := y.isLt; omega
  have hmul : (y.val / 8) * width.val ≤ 31 * 255 := Nat.mul_le_mul hy (by omega)
  refine ⟨byte_num_exact width x y, ?_, by omega, ?_⟩
  · rw [Nat.mod_eq_of_lt (by omega : (y.val / 8) * width.val < 65536)]
    exact Nat.mod_eq_of_lt (by omega)
  · have hb : bit_y y ≤ 7 := by unfold bit_y; omega
    rw [Nat.one_shiftLeft]
    calc 2 ^ bit_y y ≤ 2 ^ 7 := Nat.pow_le_pow_right (by decide) hb
      _ < 256 := by decide

/-! ## `OLED_spinlock` and `OLED_WITH_SPINLOCK` on a free lock -/

/-- Whenever `OLED_spinlock` returns, some call of `OLED_trylock` in its loop
returned true, every earlier call returned false, and the result is true with
the device that call left. -/
theorem spinlock_returns_after_true (fuel : Nat) :
    ∀ (oled : OLED) (r : Bool × OLED), OLED_spinlock fuel oled = some r →
      ∃ n : Nat, n < fuel ∧
        (OLED_trylock (after_trylocks n oled)).1 = true ∧
        (∀ m : Nat, m < n → (OLED_trylock (after_trylocks m oled)).1 = false) ∧
        r = (true, (OLED_trylock (after_trylocks n oled)).2) := by
  induction fuel with
  | zero =>
    intro oled r h
    simp [OLED_spinlock] at h
  | succ k ih =>
    intro oled r h
    rcases ht : OLED_trylock oled with ⟨b, o⟩
    cases b with
    | true =>
      simp only [OLED_spinlock, ht, Option.some.injEq] at h
      refine ⟨0, Nat.succ_pos k, ?_, ?_, ?_⟩
      · simp [after_trylocks, ht]
      · intro m hm
        omega
      · simp [after_trylocks, ht, ← h]
    | false =>
      simp only [OLED_spinlock, ht] at h
      obtain ⟨n, hn, htrue, hfalse, hr⟩ := ih o r h
      have hstep : ∀ j : Nat, after_trylocks (j + 1) oled = after_trylocks j o := by
        intro j
        simp [after_trylocks, ht]
      refine ⟨n + 1, Nat.succ_lt_succ hn, ?_, ?_, ?_⟩
      · rw [hstep]
        exact htrue
      · intro m hm
        cases m with
        | zero => simp [after_trylocks, ht]
        | succ j =>
          rw [hstep]
          exact hfalse j (by omega)
      · rw [hstep]
        exact hr

/-- C18: with no other actor, `OLED_spinlock` called on an unlocked lock
returns (two units of fuel suffice), returns true and leaves the lock locked
(`busy_lock = 0`); and it returns only after a call of `OLED_trylock` in its
loop has returned true, all earlier calls having returned false. The last part
is stated for every budget `k` of `OLED_trylock` calls: a run that returns
within `k` calls returns the result of a call, among the first `k`, that
returned true; and as long as the first `k` calls have all returned false the
function has not returned. -/
theorem spinlock_on_unlocked (oled : OLED) (fuel : Nat)
    (_hlock : oled.busy_lock = 1) (hfuel : 2 ≤ fuel) :
    (∃ o : OLED,
      OLED_spinlock fuel oled = some (true, o) ∧
      o.busy_lock = 0 ∧
      ∃ n : Nat, n < fuel ∧
        (OLED_trylock (after_trylocks n oled)).1 = true ∧
        (∀ m : Nat, m < n → (OLED_trylock (after_trylocks m oled)).1 = false) ∧
        o = (OLED_trylock (after_trylocks n oled)).2) ∧
    (∀ (k : Nat) (r : Bool × OLED), OLED_spinlock k oled = some r →
      ∃ n : Nat, n < k ∧
        (OLED_trylock (after_trylocks n oled)).1 = true ∧
        (∀ m : Nat, m < n → (OLED_trylock (after_trylocks m oled)).1 = false) ∧
        r = (true, (OLED_trylock (after_trylocks n oled)).2)) ∧
    (∀ k : Nat,
      (∀ m : Nat, m < k → (OLED_trylock (after_trylocks m oled)).1 = false) →
      OLED_spinlock k oled = none) := by
  obtain ⟨j, rfl⟩ : ∃ j, fuel = j + 2 := ⟨fuel - 2, by omega⟩
  have hs := spinlock_eq oled j
  refine ⟨?_, fun k r h => spinlock_returns_after_true k oled r h, ?_⟩
  · obtain ⟨n, hn, htrue, hfalse, hr⟩ := spinlock_returns_after_true _ _ _ hs
    exact ⟨_, hs, rfl, n, hn, htrue, hfalse, (Prod.mk.inj hr).2⟩
  · intro k hall
    cases hk : OLED_spinlock k oled with
    | none => rfl
    | some r =>
      obtain ⟨n, hn, htrue, _, _⟩ := spinlock_returns_after_true k oled r hk
      rw [hall n hn] at htrue
      exact absurd htrue (by decide)

/-- The spinlock on the unlocked test device: it returns within two calls of
`OLED_trylock`, with the result of a call that returned true, and within one
call, which returns false, it has not returned. -/
theorem spinlock_on_unlocked_witness :
    (∃ o : OLED,
      OLED_spinlock 2 test_oled = some (true, o) ∧
      o.busy_lock = 0 ∧
      ∃ n : Nat, n < 2 ∧
        (OLED_trylock (after_trylocks n test_oled)).1 = true ∧
        (∀ m : Nat, m < n → (OLED_trylock (after_trylocks m test_oled)).1 = false) ∧
        o = (OLED_trylock (after_trylocks n test_oled)).2) ∧
    OLED_spinlock 1 test_oled = none ∧
    OLED_spinlock 0 test_oled = none := by
  obtain ⟨hret, _, hnone⟩ :=
    spinlock_on_unlocked test_oled 2 (by decide) (by decide)
  refine ⟨hret, hnone 1 ?_, hnone 0 ?_⟩
  · intro m hm
    have hm0 : m = 0 := by omega
    subst hm0
    decide
  · intro m hm
    omega

/-- The body starts of the loop entered with a true condition. -/
theorem with_lock_loop_bodies_eq (body : OLED → OLED × Completion) (fuel : Nat)
    (o : OLED) : with_lock_loop_bodies body (fuel + 2) true o = [o] := by
  rcases hb : body o with ⟨o', c⟩
  cases c <;> simp [with_lock_loop_bodies, hb]

/-- C19: with no other actor and a body that runs to its end without touching
the lock, `OLED_WITH_SPINLOCK(oled) { body }` started on an unlocked lock runs
the body exactly once, the lock is locked (`busy_lock = 0`) when the body
starts and when it ends, and after the block the lock is unlocked
(`busy_lock = 1`). -/
theorem with_spinlock_runs_body_once (oled : OLED)
    (body : OLED → OLED × Completion) (fuel : Nat)
    (_hlock : oled.busy_lock = 1) (hfuel : 2 ≤ fuel)
    (hbody : ∀ o : OLED,
      (body o).2 = Completion.finished ∧ (body o).1.busy_lock = o.busy_lock) :
    ∃ (o r : OLED),
      OLED_WITH_SPINLOCK_bodies fuel oled body = [o] ∧
      o.busy_lock = 0 ∧
      (body o).1.busy_lock = 0 ∧
      OLED_WITH_SPINLOCK fuel oled body = some (r, Completion.finished) ∧
      r = OLED_unlock (body o).1 ∧
      r.busy_lock = 1 := by
  obtain ⟨k, rfl⟩ : ∃ k, fuel = k + 2 := ⟨fuel - 2, by omega⟩
  have hs := spinlock_eq oled k
  have hb := hbody { oled with busy_lock := 0 }
  have hrun : OLED_WITH_SPINLOCK (k + 2) oled body
      = some (OLED_unlock (body { oled with busy_lock := 0 }).1, Completion.finished) := by
    unfold OLED_WITH_SPINLOCK
    rw [hs]
    show with_lock_loop body (k + 2) true { oled with busy_lock := 0 } = _
    rw [with_lock_loop_eq]
    rcases hc : body { oled with busy_lock := 0 } with ⟨o', c⟩
    rw [hc] at hb
    have hfin : c = Completion.finished := hb.1
    subst hfin
    rfl
  have hbodies : OLED_WITH_SPINLOCK_bodies (k + 2) oled body
      = [{ oled with busy_lock := 0 }] := by
    unfold OLED_WITH_SPINLOCK_bodies
    rw [hs]
    exact with_lock_loop_bodies_eq body k _
  exact ⟨_, _, hbodies, rfl, hb.2, hrun, rfl, rfl⟩

/-- The block with an empty body on the unlocked test device. -/
theorem with_spinlock_runs_body_once_witness :
    ∃ (o r : OLED),
      OLED_WITH_SPINLOCK_bodies 2 test_oled empty_body = [o] ∧
      o.busy_lock = 0 ∧
      (empty_body o).1.busy_lock = 0 ∧
      OLED_WITH_SPINLOCK 2 test_oled empty_body = some (r, Completion.finished) ∧
      r = OLED_unlock (empty_body o).1 ∧
      r.busy_lock = 1 :=
  with_spinlock_runs_body_once test_oled empty_body 2 (by decide) (by decide)
    (fun _ => ⟨rfl, rfl⟩)

/-! ## Checked drawing: `OLED_put_pixel` -/

/-- C12: for `x >= width` or `y >= height`, `OLED_put_pixel` returns
`OLED_EBOUNDS` and leaves the device, every byte of the frame buffer included,
as it was; for `(x, y)` inside the bounds of a device with a height that is a
multiple of 8 and a buffer of `width * (height / 8)` bytes it returns
`OLED_EOK` with the device `OLED_put_pixel_` produces. -/
theorem put_pixel_checked (oled : OLED) (x y : uint8_t) (s : Bool) :
    ((oled.width ≤ x ∨ oled.height ≤ y) →
      OLED_put_pixel oled x y s = some (OLED_err.OLED_EBOUNDS, oled)) ∧
    (x < oled.width → y < oled.height → oled.height.val % 8 = 0 →
      oled.frame_buffer.length = oled.width.val * (oled.height.val / 8) →
      ∃ o : OLED, OLED_put_pixel_ oled x y s = some o ∧
        OLED_put_pixel oled x y s = some (OLED_err.OLED_EOK, o)) := by
  constructor
  · intro hout
    have hnot : ¬ (x < oled.width ∧ y < oled.height) := by
      rintro ⟨h1, h2⟩
      rcases hout with h | h
      · exact absurd h1 (not_lt.mpr h)
      · exact absurd h2 (not_lt.mpr h)
    unfold OLED_put_pixel
    rw [if_neg hnot]
  · intro hx hy hh hlen
    have hi : (y.val / 8) * oled.width.val + x.val < oled.frame_buffer.length := by
      rw [hlen]
      exact index_in_buffer _ _ _ _ hh hx hy
    have h1 := put_pixel_eq oled x y s _ (List.getElem?_eq_getElem hi)
    refine ⟨_, h1, ?_⟩
    unfold OLED_put_pixel
    rw [if_pos ⟨hx, hy⟩, h1]

/-- The checked pixel write on the test device: `(128, 0)` is out of bounds,
`(5, 10)` is inside. -/
theorem put_pixel_checked_witness :
    OLED_put_pixel test_oled 128 0 true = some (OLED_err.OLED_EBOUNDS, test_oled) ∧
    ∃ o : OLED, OLED_put_pixel_ test_oled 5 10 true = some o ∧
      OLED_put_pixel test_oled 5 10 true = some (OLED_err.OLED_EOK, o) :=
  ⟨(put_pixel_checked test_oled 128 0 true).1 (Or.inl (by decide)),
    (put_pixel_checked test_oled 5 10 true).2 (by decide) (by decide) (by decide)
      test_oled_length⟩

/-! ## Checked drawing: `OLED_put_rectangle` -/

/-- Membership in a closed range. -/
theorem mem_closed_range (a b v : uint8_t) :
    v ∈ closed_range a b ↔ a ≤ v ∧ v ≤ b := by
  simp [closed_range, List.mem_filter, List.mem_finRange]

/-- The bits of the byte that `OLED_put_pixel_` rewrites. -/
theorem frame_bit_set_self (fb : List uint8_t) (i k j : Nat) (s : Bool)
    (hi : i < fb.length) (hj : j < 8) :
    frame_bit (fb.set i (if s then to_uint8 ((fb[i]).val ||| (1 <<< k))
        else to_uint8 ((fb[i]).val &&& int_not (1 <<< k)))) i j
      = if k = j then some s else frame_bit fb i j := by
  simp only [frame_bit, List.getElem?_set_self hi, List.getElem?_eq_getElem hi,
    Option.map_some']
  cases s
  · simp only [Bool.false_eq_true, if_false]
    rw [testBit_clear_mask _ _ _ hj]
    by_cases hkj : k = j <;> simp [hkj]
  · simp only [if_true]
    rw [testBit_set_mask _ _ _ hj]
    by_cases hkj : k = j <;> simp [hkj]

/-- The effect of one `OLED_put_pixel_` on a valid device, in terms of pixels. -/
theorem put_pixel_effect (oled : OLED) (x y : uint8_t) (s : Bool)
    (hh : oled.height.val % 8 = 0)
    (hlen : oled.frame_buffer.length = oled.width.val * (oled.height.val / 8))
    (hx : x < oled.width) (hy : y < oled.height) :
    ∃ o : OLED,
      OLED_put_pixel_ oled x y s = some o ∧
      o.width = oled.width ∧ o.height = oled.height ∧
      o.frame_buffer.length = oled.frame_buffer.length ∧
      pixel_at o x y = some s ∧
      (∀ x' y' : uint8_t, x' < oled.width → y' < oled.height → (x', y') ≠ (x, y) →
        pixel_at o x' y' = pixel_at oled x' y') := by
  have hi : (y.val / 8) * oled.width.val + x.val < oled.frame_buffer.length := by
    rw [hlen]
    exact index_in_buffer _ _ _ _ hh hx hy
  have h1 := put_pixel_eq oled x y s _ (List.getElem?_eq_getElem hi)
  refine ⟨_, h1, rfl, rfl, List.length_set _ _ _, ?_, ?_⟩
  · show frame_bit _ ((y.val / 8) * oled.width.val + x.val) (y.val % 8) = some s
    rw [frame_bit_set_self _ _ _ _ _ hi (Nat.mod_lt _ (by decide))]
    simp
  · intro x' y' hx' _ hne
    show frame_bit _ ((y'.val / 8) * oled.width.val + x'.val) (y'.val % 8)
      = frame_bit oled.frame_buffer ((y'.val / 8) * oled.width.val + x'.val) (y'.val % 8)
    by_cases hidx : (y'.val / 8) * oled.width.val + x'.val
        = (y.val / 8) * oled.width.val + x.val
    · have hpc := page_column_unique _ _ _ _ _ hx' hx hidx
      have hk : ¬ (y.val % 8 = y'.val % 8) := by
        intro hmod
        apply hne
        have hyy : y'.val = y.val := by omega
        exact Prod.ext (Fin.ext hpc.2) (Fin.ext hyy)
      rw [hidx, frame_bit_set_self _ _ _ _ _ hi (Nat.mod_lt _ (by decide)), if_neg hk]
    · simp only [frame_bit]
      rw [List.getElem?_set_ne (Ne.symm hidx)]

/-- The effect of a sequence of pixel writes on a valid device: the writes all
return, the listed pixels hold the written state and the others are as before. -/
theorem put_pixels_effect (s : Bool) (pts : List (uint8_t × uint8_t)) :
    ∀ oled : OLED, oled.height.val % 8 = 0 →
      oled.frame_buffer.length = oled.width.val * (oled.height.val / 8) →
      (∀ p ∈ pts, p.1 < oled.width ∧ p.2 < oled.height) →
      ∃ o : OLED,
        put_pixels s oled pts = some o ∧
        o.width = oled.width ∧ o.height = oled.height ∧
        o.frame_buffer.length = oled.frame_buffer.length ∧
        (∀ x y : uint8_t, (x, y) ∈ pts → pixel_at o x y = some s) ∧
        (∀ x y : uint8_t, x < oled.width → y < oled.height → (x, y) ∉ pts →
          pixel_at o x y = pixel_at oled x y) := by
  induction pts with
  | nil =>
    intro oled _ _ _
    exact ⟨oled, rfl, rfl, rfl, rfl, fun _ _ h => absurd h (List.not_mem_nil _),
      fun _ _ _ _ _ => rfl⟩
  | cons p rest ih =>
    intro oled hh hlen hpts
    obtain ⟨x, y⟩ := p
    have hxy := hpts (x, y) (List.mem_cons_self _ _)
    obtain ⟨o1, h1, hw1, hh1, hl1, hset1, hkeep1⟩ :=
      put_pixel_effect oled x y s hh hlen hxy.1 hxy.2
    have hrest : ∀ q ∈ rest, q.1 < o1.width ∧ q.2 < o1.height := by
      intro q hq
      rw [hw1, hh1]
      exact hpts q (List.mem_cons_of_mem _ hq)
    obtain ⟨o, h2, hw2, hh2, hl2, hset2, hkeep2⟩ :=
      ih o1 (by rw [hh1]; exact hh) (by rw [hl1, hw1, hh1]; exact hlen) hrest
    refine ⟨o, ?_, hw2.trans hw1, hh2.trans hh1, hl2.trans hl1, ?_, ?_⟩
    · simp only [put_pixels, h1]
      exact h2
    · intro a b hab
      by_cases hin : (a, b) ∈ rest
      · exact hset2 a b hin
      · have hhead : (a, b) = (x, y) := by
          rcases List.mem_cons.mp hab with h | h
          · exact h
          · exact absurd h hin
        have ha : a = x := congrArg Prod.fst hhead
        have hb : b = y := congrArg Prod.snd hhead
        subst ha
        subst hb
        rw [hkeep2 a b (by rw [hw1]; exact hxy.1) (by rw [hh1]; exact hxy.2) hin]
        exact hset1
    · intro a b ha hb hnot
      have hne : (a, b) ≠ (x, y) := fun h => hnot (h ▸ List.mem_cons_self _ _)
      have hnr : (a, b) ∉ rest := fun h => hnot (List.mem_cons_of_mem _ h)
      rw [hkeep2 a b (by rw [hw1]; exact ha) (by rw [hh1]; exact hb) hnr]
      exact hkeep1 a b ha hb hne

/-- The lower corner chosen by the normalisation is the minimum. -/
theorem normalised_low (a b : uint8_t) : (if b < a then b else a) = min a b := by
  by_cases h : b < a
  · rw [if_pos h, min_eq_right (le_of_lt h)]
  · rw [if_neg h, min_eq_left (not_lt.mp h)]

/-- The upper corner chosen by the normalisation is the maximum. -/
theorem normalised_high (a b : uint8_t) : (if b < a then a else b) = max a b := by
  by_cases h : b < a
  · rw [if_pos h, max_eq_left (le_of_lt h)]
  · rw [if_neg h, max_eq_right (not_lt.mp h)]

/-- The rectangle routine in terms of the normalised corners. -/
theorem put_rectangle_eq (oled : OLED) (x_from y_from x_to y_to : uint8_t)
    (params : Nat) :
    OLED_put_rectangle oled x_from y_from x_to y_to params =
      if x_from < oled.width ∧ x_to < oled.width ∧
          y_from < oled.height ∧ y_to < oled.height then
        match put_pixels (decide (params &&& OLED_BLACK ≠ 0)) oled
          (if params &&& OLED_FILL ≠ 0 then
            List.product (closed_range (min x_from x_to) (max x_from x_to))
              (closed_range (min y_from y_to) (max y_from y_to))
          else
            (closed_range (min x_from x_to) (max x_from x_to)).map
              (fun x => (x, min y_from y_to)) ++
            (closed_range (min x_from x_to) (max x_from x_to)).map
              (fun x => (x, max y_from y_to)) ++
            (closed_range (min y_from y_to) (max y_from y_to)).map
              (fun y => (min x_from x_to, y)) ++
            (closed_range (min y_from y_to) (max y_from y_to)).map
              (fun y => (max x_from x_to, y))) with
        | none => none
        | some o => some (OLED_err.OLED_EOK, o)
      else some (OLED_err.OLED_EBOUNDS, oled) := by
  unfold OLED_put_rectangle
  simp only [normalised_low, normalised_high]

/-- Swapping the two x coordinates does not change the rectangle routine. -/
theorem put_rectangle_swap_x (oled : OLED) (x_from y_from x_to y_to : uint8_t)
    (params : Nat) :
    OLED_put_rectangle oled x_to y_from x_from y_to params
      = OLED_put_rectangle oled x_from y_from x_to y_to params := by
  rw [put_rectangle_eq, put_rectangle_eq, min_comm x_to x_from, max_comm x_to x_from]
  by_cases hb : x_from < oled.width ∧ x_to < oled.width ∧
      y_from < oled.height ∧ y_to < oled.height
  · rw [if_pos hb, if_pos ⟨hb.2.1, hb.1, hb.2.2⟩]
  · rw [if_neg hb, if_neg (fun h => hb ⟨h.2.1, h.1, h.2.2⟩)]

/-- Swapping the two y coordinates does not change the rectangle routine. -/
theorem put_rectangle_swap_y (oled : OLED) (x_from y_from x_to y_to : uint8_t)
    (params : Nat) :
    OLED_put_rectangle oled x_from y_to x_to y_from params
      = OLED_put_rectangle oled x_from y_from x_to y_to params := by
  rw [put_rectangle_eq, put_rectangle_eq, min_comm y_to y_from, max_comm y_to y_from]
  by_cases hb : x_from < oled.width ∧ x_to < oled.width ∧
      y_from < oled.height ∧ y_to < oled.height
  · rw [if_pos hb, if_pos ⟨hb.1, hb.2.1, hb.2.2.2, hb.2.2.1⟩]
  · rw [if_neg hb, if_neg (fun h => hb ⟨h.1, h.2.1, h.2.2.2, h.2.2.1⟩)]

/-- The rectangle routine on the corners put in increasing order. -/
theorem put_rectangle_sorted (oled : OLED) (x_from y_from x_to y_to : uint8_t)
    (params : Nat) :
    OLED_put_rectangle oled (min x_from x_to) (min y_from y_to)
        (max x_from x_to) (max y_from y_to) params
      = OLED_put_rectangle oled x_from y_from x_to y_to params := by
  rcases le_total x_from x_to with hx | hx <;> rcases le_total y_from y_to with hy | hy
  · rw [min_eq_left hx, max_eq_right hx, min_eq_left hy, max_eq_right hy]
  · rw [min_eq_left hx, max_eq_right hx, min_eq_right hy, max_eq_left hy]
    exact put_rectangle_swap_y oled x_from y_from x_to y_to params
  · rw [min_eq_right hx, max_eq_left hx, min_eq_left hy, max_eq_right hy]
    exact put_rectangle_swap_x oled x_from y_from x_to y_to params
  · rw [min_eq_right hx, max_eq_left hx, min_eq_right hy, max_eq_left hy]
    exact (put_rectangle_swap_x oled x_from y_to x_to y_from params).trans
      (put_rectangle_swap_y oled x_from y_from x_to y_to params)

/-- C13: on a device with a height that is a multiple of 8 and a buffer of
`width * (height / 8)` bytes, for four in-bounds coordinates,
`OLED_put_rectangle` with `OLED_FILL` set returns `OLED_EOK`, every pixel
`(x, y)` with `min(x_from, x_to) <= x <= max(x_from, x_to)` and
`min(y_from, y_to) <= y <= max(y_from, y_to)` holds the colour bit of
`params`, and every pixel of the display outside that closed rectangle is as
before; the dimensions and the buffer length are kept. -/
theorem put_rectangle_fill (oled : OLED) (x_from y_from x_to y_to : uint8_t)
    (params : Nat)
    (hh : oled.height.val % 8 = 0)
    (hlen : oled.frame_buffer.length = oled.width.val * (oled.height.val / 8))
    (hxf : x_from < oled.width) (hyf : y_from < oled.height)
    (hxt : x_to < oled.width) (hyt : y_to < oled.height)
    (hfill : params &&& OLED_FILL ≠ 0) :
    ∃ o : OLED,
      OLED_put_rectangle oled x_from y_from x_to y_to params
        = some (OLED_err.OLED_EOK, o) ∧
      o.width = oled.width ∧ o.height = oled.height ∧
      o.frame_buffer.length = oled.frame_buffer.length ∧
      (∀ x y : uint8_t, min x_from x_to ≤ x → x ≤ max x_from x_to →
        min y_from y_to ≤ y → y ≤ max y_from y_to →
        pixel_at o x y = some (decide (params &&& OLED_BLACK ≠ 0))) ∧
      (∀ x y : uint8_t, x < oled.width → y < oled.height →
        ¬ (min x_from x_to ≤ x ∧ x ≤ max x_from x_to ∧
            min y_from y_to ≤ y ∧ y ≤ max y_from y_to) →
        pixel_at o x y = pixel_at oled x y) := by
  have hmem : ∀ x y : uint8_t,
      (x, y) ∈ List.product (closed_range (min x_from x_to) (max x_from x_to))
          (closed_range (min y_from y_to) (max y_from y_to)) ↔
        (min x_from x_to ≤ x ∧ x ≤ max x_from x_to) ∧
          (min y_from y_to ≤ y ∧ y ≤ max y_from y_to) := by
    intro x y
    rw [List.pair_mem_product, mem_closed_range, mem_closed_range]
  have hpts : ∀ p ∈ List.product (closed_range (min x_from x_to) (max x_from x_to))
      (closed_range (min y_from y_to) (max y_from y_to)),
      p.1 < oled.width ∧ p.2 < oled.height := by
    rintro ⟨x, y⟩ hp
    have h := (hmem x y).mp hp
    exact ⟨lt_of_le_of_lt h.1.2 (max_lt hxf hxt), lt_of_le_of_lt h.2.2 (max_lt hyf hyt)⟩
  obtain ⟨o, hrun, hw, hhe, hl, hset, hkeep⟩ :=
    put_pixels_effect (decide (params &&& OLED_BLACK ≠ 0)) _ oled hh hlen hpts
  refine ⟨o, ?_, hw, hhe, hl, ?_, ?_⟩
  · rw [put_rectangle_eq, if_pos ⟨hxf, hxt, hyf, hyt⟩, if_pos hfill, hrun]
  · intro x y h1 h2 h3 h4
    exact hset x y ((hmem x y).mpr ⟨⟨h1, h2⟩, ⟨h3, h4⟩⟩)
  · intro x y hx hy hout
    refine hkeep x y hx hy (fun hin => hout ?_)
    have h := (hmem x y).mp hin
    exact ⟨h.1.1, h.1.2, h.2.1, h.2.2⟩

/-- The two filled rectangles `oled_test.c` draws first, on the test device:
`(0,0)-(127,63)` with `OLED_FILL | OLED_WHITE`, then `(2,2)-(125,61)` with
`OLED_FILL | OLED_BLACK`. Both return `OLED_EOK`; pixel `(0, 0)` ends white
and pixel `(2, 2)` ends black. -/
theorem put_rectangle_fill_witness :
    ∃ o1 o2 : OLED,
      OLED_put_rectangle test_oled 0 0 127 63 (OLED_FILL ||| OLED_WHITE)
        = some (OLED_err.OLED_EOK, o1) ∧
      OLED_put_rectangle o1 2 2 125 61 (OLED_FILL ||| OLED_BLACK)
        = some (OLED_err.OLED_EOK, o2) ∧
      pixel_at o2 0 0 = some false ∧
      pixel_at o2 2 2 = some true := by
  obtain ⟨o1, hr1, hw1, hh1, hl1, hset1, _⟩ :=
    put_rectangle_fill test_oled 0 0 127 63 (OLED_FILL ||| OLED_WHITE)
      (by decide) test_oled_length (by decide) (by decide) (by decide) (by decide)
      (by decide)
  obtain ⟨o2, hr2, _, _, _, hset2, hkeep2⟩ :=
    put_rectangle_fill o1 2 2 125 61 (OLED_FILL ||| OLED_BLACK)
      (by rw [hh1]; decide) (by rw [hl1, hw1, hh1]; exact test_oled_length)
      (by rw [hw1]; decide) (by rw [hh1]; decide) (by rw [hw1]; decide)
      (by rw [hh1]; decide) (by decide)
  refine ⟨o1, o2, hr1, hr2, ?_, ?_⟩
  · rw [hkeep2 0 0 (by rw [hw1]; decide) (by rw [hh1]; decide) (by decide)]
    exact hset1 0 0 (by decide) (by decide) (by decide) (by decide)
  · exact hset2 2 2 (by decide) (by decide) (by decide) (by decide)

/-- C14: for every device, every `params` and all four coordinates, in bounds
or not, `OLED_put_rectangle` returns the same result and the same device as
the call with each pair of coordinates put in increasing order; swapping
`x_from` with `x_to`, `y_from` with `y_to`, or both, does not change the
outcome. The reversed corners `(105,31)-(100,28)` of `oled_test.c` give what
`(100,28)-(105,31)` gives. -/
theorem put_rectangle_reversed (oled : OLED) (x_from y_from x_to y_to : uint8_t)
    (params : Nat) :
    OLED_put_rectangle oled x_from y_from x_to y_to params
      = OLED_put_rectangle oled (min x_from x_to) (min y_from y_to)
          (max x_from x_to) (max y_from y_to) params ∧
    OLED_put_rectangle oled x_to y_from x_from y_to params
      = OLED_put_rectangle oled x_from y_from x_to y_to params ∧
    OLED_put_rectangle oled x_from y_to x_to y_from params
      = OLED_put_rectangle oled x_from y_from x_to y_to params ∧
    OLED_put_rectangle oled x_to y_to x_from y_from params
      = OLED_put_rectangle oled x_from y_from x_to y_to params ∧
    OLED_put_rectangle test_oled 105 31 100 28 (OLED_FILL ||| OLED_WHITE)
      = OLED_put_rectangle test_oled 100 28 105 31 (OLED_FILL ||| OLED_WHITE) :=
  ⟨(put_rectangle_sorted oled x_from y_from x_to y_to params).symm,
    put_rectangle_swap_x oled x_from y_from x_to y_to params,
    put_rectangle_swap_y oled x_from y_from x_to y_to params,
    (put_rectangle_swap_x oled x_from y_to x_to y_from params).trans
      (put_rectangle_swap_y oled x_from y_from x_to y_to params),
    (put_rectangle_swap_x test_oled 100 31 105 28 (OLED_FILL ||| OLED_WHITE)).trans
      (put_rectangle_swap_y test_oled 100 28 105 31 (OLED_FILL ||| OLED_WHITE))⟩

end SSD1306
